import Mathlib

/-
Shallow embedding of the cryptocurrency data pipeline in
src/crypto_pipeline_demo.py (class CryptoPipeline).

Modelling conventions:
- Parsed JSON values (API responses) are the inductive `Json`; Python floats
  are modelled as rationals, and datetime values are carried as rational
  numbers (the wall clock is passed in explicitly where the code reads it).
- A pandas DataFrame is modelled as a list of rows, each row an ordered
  association list from column name to value; the frame is rectangular in
  all the flows of this program, which the well-formedness hypotheses of the
  round-trip theorem make explicit.
- Randomness (np.random.normal draws in the mock data) is modelled by an
  explicit list of draw values consumed in call order.
- Fallible operations that can raise in Python return `Except String`.
-/

namespace CryptoPipeline

/-- JSON-like values: the shape of parsed API responses and of DataFrame
cells. Numbers stand for Python ints/floats (as rationals), and datetime
values are carried in `num`. -/
inductive Json where
  | null : Json
  | num (q : ℚ) : Json
  | str (s : String) : Json
  | arr (elems : List Json) : Json
  | obj (fields : List (String × Json)) : Json

/-- Key lookup in a JSON object field list (Python dict access; dict keys are
unique, `find?` takes the first). -/
def getKeyFields (fields : List (String × Json)) (k : String) : Option Json :=
  (fields.find? (fun kv => kv.1 == k)).map (fun kv => kv.2)

/-- Key lookup on a JSON value; `none` on non-objects. -/
def getKey : Json → String → Option Json
  | Json.obj fields, k => getKeyFields fields k
  | _, _ => none

/-- Whether a JSON object value has the given key (Python `k in d`). -/
def hasKey (j : Json) (k : String) : Bool :=
  (getKey j k).isSome

/-- Python truthiness: `not data` is true exactly for these values. -/
def isFalsy : Json → Bool
  | Json.null => true
  | Json.num q => q == 0
  | Json.str s => s == ""
  | Json.arr elems => elems.isEmpty
  | Json.obj fields => fields.isEmpty

/-- Whether a JSON value is an object (a Python dict, a record). -/
def isObj : Json → Bool
  | Json.obj _ => true
  | _ => false

/-- The field list of a JSON object (empty for non-objects). -/
def fieldsOf : Json → List (String × Json)
  | Json.obj fields => fields
  | _ => []

/-- A row of the in-memory dataset: column name to cell value, in column
order. -/
abbrev Row := List (String × Json)

/-- The in-memory dataset (pandas DataFrame `self.df`): a list of rows. -/
abbrev DataFrame := List Row

/-- Cell lookup in a row by column name. -/
def lookupVal (r : Row) (k : String) : Option Json :=
  (r.find? (fun kv => kv.1 == k)).map (fun kv => kv.2)

/-- The column list of a DataFrame; rows are rectangular in this program, so
the columns are the keys of the first row (empty frame: no columns, as for
`pd.DataFrame()`). -/
def columns : DataFrame → List String
  | [] => []
  | r :: _ => r.map Prod.fst

/-- Column assignment `df[k] = v` restricted to one row: replace the cell if
the column exists, otherwise add it at the end. -/
def setKey (r : Row) (k : String) (v : Json) : Row :=
  if r.any (fun kv => kv.1 == k) then
    r.map (fun kv => if kv.1 == k then (k, v) else kv)
  else r ++ [(k, v)]

/-- Dotted path concatenation used by `pd.json_normalize` for nested keys. -/
def joinKey (pre k : String) : String :=
  if pre = "" then k else pre ++ "." ++ k

mutual

/-- Flattening of one JSON value under a key path, as `pd.json_normalize`
does: nested objects contribute dotted-path columns, every other value is a
single cell. -/
def flattenJson (pre : String) : Json → Row
  | Json.obj fields => flattenFields pre fields
  | v => [(pre, v)]

/-- Flattening of an object field list under a key path. -/
def flattenFields (pre : String) : List (String × Json) → Row
  | [] => []
  | (k, v) :: rest => flattenJson (joinKey pre k) v ++ flattenFields pre rest

end

/-- The flat row `pd.json_normalize` produces for one record. -/
def flattenOf (e : Json) : Row :=
  flattenFields "" (fieldsOf e)

/-- Normalization of a list of records: each element must be a dict, else
pandas raises. -/
def normalizeList : List Json → Except String DataFrame
  | [] => .ok []
  | Json.obj fields :: rest =>
      (normalizeList rest).map (fun d => flattenFields "" fields :: d)
  | _ :: _ => .error "AttributeError"

/-- `pd.json_normalize` on the value stored under the top-level key: a dict
becomes a single row, a list of dicts one row per dict, anything else raises. -/
def json_normalize : Json → Except String DataFrame
  | Json.obj fields => .ok [flattenFields "" fields]
  | Json.arr elems => normalizeList elems
  | _ => .error "AttributeError"

/-- Whether the Python substring test `"data" in s` succeeds. -/
def strContainsData (s : String) : Bool :=
  (s.splitOn "data").length > 1

/-- CryptoPipeline.process_data (lines 148-167).  `now` is the wall-clock
value read by `pd.to_datetime("now")`.  Mirrors
`if not data or "data" not in data: return pd.DataFrame()` including the
Python behaviour of the `in` test on non-dict values: on a list it is
membership (then indexing by a string raises), on a string it is a substring
test (then indexing raises), on a number it raises TypeError. -/
def process_data (data : Json) (now : ℚ) : Except String DataFrame :=
  if isFalsy data then .ok []
  else
    match data with
    | Json.obj fields =>
        match getKeyFields fields "data" with
        | none => .ok []
        | some v =>
            (json_normalize v).map
              (fun d => d.map (fun r => setKey r "timestamp" (Json.num now)))
    | Json.arr elems =>
        if elems.any (fun e =>
            match e with
            | Json.str s => s == "data"
            | _ => false) then
          .error "TypeError"
        else .ok []
    | Json.str s => if strContainsData s then .error "TypeError" else .ok []
    | Json.num _ => .error "TypeError"
    | Json.null => .ok []

/-- The i-th random draw of a run of `np.random.normal` calls. -/
def nz (noise : List ℚ) (i : Nat) : ℚ :=
  noise.getD i 0

/-- USD quote object of one mock record, field order as in the source. -/
def mkUsdQuote (price pc1 pc24 pc7 pc30 pc60 pc90 mcap vol : ℚ) : Json :=
  Json.obj
    [("price", Json.num price),
     ("percent_change_1h", Json.num pc1),
     ("percent_change_24h", Json.num pc24),
     ("percent_change_7d", Json.num pc7),
     ("percent_change_30d", Json.num pc30),
     ("percent_change_60d", Json.num pc60),
     ("percent_change_90d", Json.num pc90),
     ("market_cap", Json.num mcap),
     ("volume_24h", Json.num vol)]

/-- One mock asset record, field order as in the source. -/
def mkAsset (id : ℚ) (name symbol slug : String) (rank : ℚ) (q : Json) : Json :=
  Json.obj
    [("id", Json.num id),
     ("name", Json.str name),
     ("symbol", Json.str symbol),
     ("slug", Json.str slug),
     ("cmc_rank", Json.num rank),
     ("quote", Json.obj [("USD", q)])]

/-- The three mock records of CryptoPipeline._get_mock_data (lines 80-146);
`noise` is the sequence of np.random.normal draws in call order. -/
def mockElems (noise : List ℚ) : List Json :=
  [mkAsset 1 "Bitcoin" "BTC" "bitcoin" 1
     (mkUsdQuote (45000.5 + nz noise 0) (nz noise 1) (nz noise 2)
       (nz noise 3) (nz noise 4) (nz noise 5) (nz noise 6)
       800000000000 25000000000),
   mkAsset 2 "Ethereum" "ETH" "ethereum" 2
     (mkUsdQuote (3200.75 + nz noise 7) (nz noise 8) (nz noise 9)
       (nz noise 10) (nz noise 11) (nz noise 12) (nz noise 13)
       400000000000 15000000000),
   mkAsset 3 "Tether" "USDT" "tether" 3
     (mkUsdQuote (1.0 + nz noise 14) (nz noise 15) (nz noise 16)
       (nz noise 17) (nz noise 18) (nz noise 19) (nz noise 20)
       90000000000 50000000000)]

/-- CryptoPipeline._get_mock_data: the synthetic fallback response. -/
def get_mock_data (noise : List ℚ) : Json :=
  Json.obj [("data", Json.arr (mockElems noise))]

/-- Outcome of the external HTTP request plus body parse, the only thing
about the transport layer the function observes. -/
inductive FetchOutcome where
  | success (body : Json) : FetchOutcome
  | requestError (msg : String) : FetchOutcome
  | jsonError (msg : String) : FetchOutcome

/-- CryptoPipeline.fetch_crypto_data (lines 49-78): returns the parsed body
on success, the mock data on a transport or parse failure.  The query
parameters start/limit/convert only shape the external request and do not
affect this value. -/
def fetch_crypto_data (outcome : FetchOutcome) (noise : List ℚ) : Json :=
  match outcome with
  | .success body => body
  | .requestError _ => get_mock_data noise
  | .jsonError _ => get_mock_data noise

/-- CryptoPipeline.append_data (lines 169-183). -/
def append_data (df new : DataFrame) : DataFrame :=
  if new.isEmpty then df
  else if df.isEmpty then new
  else df ++ new

/-- Numeric cell of a row at a column. -/
def numAt (r : Row) (k : String) : Option ℚ :=
  match lookupVal r k with
  | some (Json.num q) => some q
  | _ => none

/-- The collection timestamps of a dataset in row order. -/
def tsOf (df : DataFrame) : List ℚ :=
  df.filterMap (fun r => numAt r "timestamp")

/-- The rows process_data contributes for a list of records at one instant. -/
def processedOf (elems : List Json) (t : ℚ) : DataFrame :=
  elems.map (fun e => setKey (flattenOf e) "timestamp" (Json.num t))

/-- CryptoPipeline.run_data_collection (lines 185-217): one environment entry
per iteration gives the fetch outcome, the random draws and the wall-clock
instant of that iteration; the sleep between iterations has no effect on the
dataset. -/
def run_data_collection : List (FetchOutcome × List ℚ × ℚ) → DataFrame →
    Except String DataFrame
  | [], df => .ok df
  | (o, ns, t) :: rest, df =>
      let raw := fetch_crypto_data o ns
      if isFalsy raw then run_data_collection rest df
      else
        match process_data raw t with
        | .ok p => run_data_collection rest (append_data df p)
        | .error e => .error e

/-- The on-disk CSV file: header row plus one cell list per record.  The
textual rendering and reparsing of scalar cells is the external CSV layer;
it is value-preserving for the values this pipeline writes, which is what
the typed cells capture. -/
structure CsvFile where
  header : List String
  rows : List (List Json)

/-- The file `df.to_csv(filepath, index=False)` writes. -/
def toCsv (df : DataFrame) : CsvFile :=
  { header := columns df,
    rows := df.map (fun r => (columns df).map
      (fun c => (lookupVal r c).getD Json.null)) }

/-- CryptoPipeline.save_to_csv (lines 219-232): the new file-system state;
an empty dataset writes nothing ("No data to save"). -/
def save_to_csv (df : DataFrame) (file : Option CsvFile) : Option CsvFile :=
  if df.isEmpty then file else some (toCsv df)

/-- `pd.to_datetime` applied to a loaded timestamp cell: at the typed-cell
level the textual round trip is value-preserving, so this is the identity. -/
def parseTime (v : Json) : Json := v

/-- CryptoPipeline.load_from_csv (lines 234-248): on a missing file, report
and keep the in-memory dataset; otherwise rebuild rows from the file and
reparse the timestamp column, which raises KeyError when absent.  The second
component is the printed report. -/
def load_from_csv (file : Option CsvFile) (filename : String) (df : DataFrame) :
    Except String (DataFrame × String) :=
  match file with
  | none => .ok (df, "File " ++ filename ++ " not found")
  | some f =>
      let newDf : DataFrame := f.rows.map (fun cells => f.header.zip cells)
      if "timestamp" ∈ f.header then
        .ok (newDf.map (fun r =>
              setKey r "timestamp" (parseTime ((lookupVal r "timestamp").getD Json.null))),
             "Data loaded from " ++ filename)
      else .error "KeyError: timestamp"

/-- The six percent-change columns of analyze_price_trends (lines 262-269). -/
def trend_columns : List String :=
  ["quote.USD.percent_change_1h",
   "quote.USD.percent_change_24h",
   "quote.USD.percent_change_7d",
   "quote.USD.percent_change_30d",
   "quote.USD.percent_change_60d",
   "quote.USD.percent_change_90d"]

/-- The trend columns actually present in the dataset. -/
def availableOf (df : DataFrame) : List String :=
  trend_columns.filter (fun c => (columns df).contains c)

/-- The asset name of a row, when present as a string (groupby drops rows
with a missing key). -/
def rowName (r : Row) : Option String :=
  match lookupVal r "name" with
  | some (Json.str s) => some s
  | _ => none

/-- The asset names of a dataset in row order. -/
def names (df : DataFrame) : List String :=
  df.filterMap rowName

/-- First-seen deduplication, the group order of `groupby(sort=False)`. -/
def firstSeenAux : List String → List String → List String
  | [], _ => []
  | x :: xs, seen =>
      if x ∈ seen then firstSeenAux xs seen
      else x :: firstSeenAux xs (x :: seen)

/-- Distinct values in first-seen order. -/
def firstSeen (l : List String) : List String :=
  firstSeenAux l []

/-- The rows of one groupby group: the rows whose name is `n`. -/
def rowsFor (df : DataFrame) (n : String) : DataFrame :=
  df.filter (fun r => rowName r == some n)

/-- Column mean over a list of rows, skipping rows without a numeric cell
(pandas mean skips missing values). -/
def colMean (rows : DataFrame) (c : String) : ℚ :=
  let vs := rows.filterMap (fun r => numAt r c)
  vs.sum / vs.length

/-- CryptoPipeline.analyze_price_trends (lines 250-279): per asset name in
first-seen order, the mean of each available trend column; `groupby("name")`
raises KeyError when the name column is absent. -/
def analyze_price_trends (df : DataFrame) :
    Except String (List (String × List (String × ℚ))) :=
  if df.isEmpty then .ok []
  else if (availableOf df).isEmpty then .ok []
  else if (columns df).contains "name" then
    .ok ((firstSeen (names df)).map (fun n =>
      (n, (availableOf df).map (fun c => (c, colMean (rowsFor df n) c)))))
  else .error "KeyError: name"

/-- Insertion into a count-descending list (stable for ties). -/
def insertByCount (p : String × Nat) : List (String × Nat) → List (String × Nat)
  | [] => [p]
  | q :: rest => if p.2 > q.2 then p :: q :: rest else q :: insertByCount p rest

/-- Stable sort by descending count. -/
def sortByCount : List (String × Nat) → List (String × Nat)
  | [] => []
  | p :: rest => insertByCount p (sortByCount rest)

/-- `value_counts()` over a name column: frequencies in descending order. -/
def value_counts (vals : List String) : List (String × Nat) :=
  sortByCount ((firstSeen vals).map (fun v => (v, vals.count v)))

/-- Rendering of a datetime for the summary (`strftime`); the exact text is
the formatting layer, modelled as the canonical rendering of the value. -/
def formatTime (q : ℚ) : String :=
  toString q

/-- Minimum of a list of timestamps (df nonempty in the use site). -/
def minQ : List ℚ → ℚ
  | [] => 0
  | x :: xs => xs.foldl min x

/-- Maximum of a list of timestamps. -/
def maxQ : List ℚ → ℚ
  | [] => 0
  | x :: xs => xs.foldl max x

/-- The value CryptoPipeline.get_summary_stats returns: either the sentinel
message dict or the stats dict, with the keys of the source. -/
inductive SummaryStats where
  | noData (message : String) : SummaryStats
  | stats (total_records : Nat) (unique_cryptocurrencies : Nat)
      (start_time end_time : String)
      (top_cryptocurrencies : List (String × Nat)) : SummaryStats

/-- CryptoPipeline.get_summary_stats (lines 379-399). -/
def get_summary_stats (df : DataFrame) : SummaryStats :=
  if df.isEmpty then .noData "No data available"
  else
    .stats df.length
      (if (columns df).contains "name" then (names df).dedup.length else 0)
      (if (columns df).contains "timestamp" then formatTime (minQ (tsOf df)) else "N/A")
      (if (columns df).contains "timestamp" then formatTime (maxQ (tsOf df)) else "N/A")
      (if (columns df).contains "name" then (value_counts (names df)).take 5 else [])

end CryptoPipeline

namespace CryptoPipeline

/-! Extraction helpers used to state claims about fetch results. -/

/-- Number of records under the top-level data key. -/
def recordCount (j : Json) : Nat :=
  match getKey j "data" with
  | some (Json.arr es) => es.length
  | _ => 0

/-- The given top-level field of every record, in record order. -/
def recordField (j : Json) (f : String) : List (Option Json) :=
  match getKey j "data" with
  | some (Json.arr es) => es.map (fun e => getKey e f)
  | _ => []

/-- The given USD-quote field of every record, in record order. -/
def quoteField (j : Json) (f : String) : List (Option Json) :=
  match getKey j "data" with
  | some (Json.arr es) =>
      es.map (fun e => (getKey e "quote").bind
        (fun q => (getKey q "USD").bind (fun u => getKey u f)))
  | _ => []

/-- The price of the first record, when present. -/
def firstPrice (j : Json) : Option ℚ :=
  match quoteField j "price" with
  | some (Json.num p) :: _ => some p
  | _ => none

/-- Two single-record assets, used to witness the trend aggregation. -/
def trendDf : DataFrame :=
  [[("name", Json.str "Bitcoin"), ("quote.USD.percent_change_1h", Json.num 5)],
   [("name", Json.str "Ethereum"), ("quote.USD.percent_change_1h", Json.num 7)]]

/-- A three-record dataset from two polls — Bitcoin appears twice with
different percent-change values — used to witness the multi-row mean of the
trend aggregation. -/
def multiPollDf : DataFrame :=
  [[("name", Json.str "Bitcoin"), ("quote.USD.percent_change_1h", Json.num 5)],
   [("name", Json.str "Ethereum"), ("quote.USD.percent_change_1h", Json.num 4)],
   [("name", Json.str "Bitcoin"), ("quote.USD.percent_change_1h", Json.num 7)]]

/-- A one-record file already on disk, used by the round-trip
counterexample: saving an empty dataset writes nothing, so this file is what
a following load sees. -/
def file0 : CsvFile :=
  { header := ["name", "timestamp"], rows := [[Json.str "x", Json.num 0]] }

/-- A one-record dataset with a timestamp column, used to witness the
round-trip theorem. -/
def rtDf : DataFrame :=
  [[("name", Json.str "Bitcoin"), ("quote.USD.price", Json.num 45000.5),
    ("timestamp", Json.num 7)]]

/-! Helper lemmas about rows and normalization. -/

theorem lookupVal_map_replace (k : String) (v : Json) :
    ∀ (r : Row), r.any (fun kv => kv.1 == k) = true →
      lookupVal (r.map (fun kv => if kv.1 == k then (k, v) else kv)) k = some v := by
  intro r
  induction r with
  | nil => intro h; simp at h
  | cons kv rest ih =>
      intro h
      by_cases hk : kv.1 == k
      · simp [lookupVal, hk, List.find?]
      · simp only [List.any_cons, hk, Bool.false_or] at h
        simpa [lookupVal, hk, List.find?] using ih h

theorem lookupVal_append_right (k : String) :
    ∀ (r s : Row), r.any (fun kv => kv.1 == k) = false →
      lookupVal (r ++ s) k = lookupVal s k := by
  intro r s
  induction r with
  | nil => intro _; rfl
  | cons kv rest ih =>
      intro h
      simp only [List.any_cons, Bool.or_eq_false_iff] at h
      simpa [lookupVal, List.find?, h.1] using ih h.2

theorem lookupVal_setKey (r : Row) (k : String) (v : Json) :
    lookupVal (setKey r k v) k = some v := by
  unfold setKey
  cases h : r.any (fun kv => kv.1 == k) with
  | true => simpa [h] using lookupVal_map_replace k v r h
  | false =>
      rw [if_neg (by simp [h]), lookupVal_append_right k r _ h]
      simp [lookupVal, List.find?]

theorem normalizeList_objs :
    ∀ (elems : List Json), (∀ e ∈ elems, isObj e = true) →
      normalizeList elems = .ok (elems.map flattenOf) := by
  intro elems
  induction elems with
  | nil => intro _; rfl
  | cons e rest ih =>
      intro h
      have he : isObj e = true := h e (List.mem_cons_self e rest)
      cases e with
      | obj fields =>
          have := ih (fun x hx => h x (List.mem_cons_of_mem _ hx))
          simp [normalizeList, this, flattenOf, fieldsOf, Except.map]
      | null => simp [isObj] at he
      | num q => simp [isObj] at he
      | str s => simp [isObj] at he
      | arr es => simp [isObj] at he

theorem isFalsy_of_getKey {j : Json} {k : String} {v : Json}
    (h : getKey j k = some v) : isFalsy j = false := by
  cases j with
  | obj fields =>
      cases fields with
      | nil => simp [getKey, getKeyFields, List.find?] at h
      | cons f fs => simp [isFalsy]
  | null => simp [getKey] at h
  | num q => simp [getKey] at h
  | str s => simp [getKey] at h
  | arr es => simp [getKey] at h

theorem process_data_of_data_arr {raw : Json} {elems : List Json} (t : ℚ)
    (h : getKey raw "data" = some (Json.arr elems))
    (hobj : ∀ e ∈ elems, isObj e = true) :
    process_data raw t = .ok (processedOf elems t) := by
  cases raw with
  | obj fields =>
      have hf : isFalsy (Json.obj fields) = false := isFalsy_of_getKey h
      rw [getKey] at h
      simp only [process_data, hf, if_false, h, json_normalize,
        normalizeList_objs elems hobj, Except.map, Bool.false_eq_true]
      simp [processedOf, flattenOf, List.map_map, Function.comp]
  | null => simp [getKey] at h
  | num q => simp [getKey] at h
  | str s => simp [getKey] at h
  | arr es => simp [getKey] at h

theorem length_processedOf (elems : List Json) (t : ℚ) :
    (processedOf elems t).length = elems.length := by
  simp [processedOf]

theorem timestamp_processedOf (elems : List Json) (t : ℚ) :
    ∀ r ∈ processedOf elems t, lookupVal r "timestamp" = some (Json.num t) := by
  intro r hr
  simp only [processedOf, List.mem_map] at hr
  obtain ⟨e, -, rfl⟩ := hr
  exact lookupVal_setKey _ _ _

theorem append_data_eq_append (E B : DataFrame) : append_data E B = E ++ B := by
  unfold append_data
  cases B with
  | nil => simp
  | cons b bs =>
      cases E with
      | nil => simp
      | cons e es => simp

/-! Claim theorems. -/

/-- Claim C2: append semantics — appending an empty batch returns the
existing dataset unchanged, appending to an empty dataset yields the batch,
and in general the result is the rows of the existing dataset followed by
the rows of the batch in order. -/
theorem append_data_spec (E B : DataFrame) :
    append_data E [] = E ∧ append_data [] B = B ∧ append_data E B = E ++ B :=
  ⟨by rw [append_data_eq_append, List.append_nil],
   by rw [append_data_eq_append, List.nil_append],
   append_data_eq_append E B⟩

/-- Claim C4 (amended): a fetch result that is a JSON object lacking the
top-level data key is processed to an empty dataset, and one whose data
entry is an array of K record objects yields exactly K flat rows, each
carrying the same collection timestamp; a non-object truthy input (such as
a bare number) instead raises, see the counterexample. -/
theorem process_data_spec (fields : List (String × Json)) (elems : List Json) (now : ℚ) :
    (getKeyFields fields "data" = none → process_data (Json.obj fields) now = .ok []) ∧
    (getKeyFields fields "data" = some (Json.arr elems) →
      (∀ e ∈ elems, isObj e = true) →
      process_data (Json.obj fields) now = .ok (processedOf elems now) ∧
      (processedOf elems now).length = elems.length ∧
      ∀ r ∈ processedOf elems now, lookupVal r "timestamp" = some (Json.num now)) := by
  constructor
  · intro h
    cases fields with
    | nil => rfl
    | cons f fs => simp [process_data, isFalsy, h]
  · intro h hobj
    refine ⟨process_data_of_data_arr now ?_ hobj, length_processedOf elems now,
      timestamp_processedOf elems now⟩
    rw [getKey]; exact h

/-- Witness for C4: processing the mock response at instant 0 yields its
three flat rows. -/
theorem process_data_witness :
    process_data (get_mock_data []) 0 = .ok (processedOf (mockElems []) 0) ∧
    (processedOf (mockElems []) 0).length = 3 := by
  have h := (process_data_spec [("data", Json.arr (mockElems []))] (mockElems []) 0).2
    rfl (by decide)
  exact ⟨h.1, h.2.1⟩

/-- Counterexample for C4 as frozen: a truthy non-object input that lacks
the data key makes process_data raise (Python TypeError from the `in` test)
instead of returning an empty dataset. -/
theorem process_data_scalar_counterexample :
    process_data (Json.num 5) 0 = .error "TypeError" ∧
    process_data (Json.num 5) 0 ≠ .ok ([] : DataFrame) :=
  ⟨rfl, fun h => Except.noConfusion h⟩

/-- Claim C5: on either failure outcome (transport error or parse failure)
the fetch returns the fallback dataset of exactly 3 records named Bitcoin,
Ethereum, Tether with ranks 1, 2, 3, for every sequence of random draws. -/
theorem fallback_contents_spec (noise : List ℚ) (msg : String) :
    recordCount (fetch_crypto_data (.requestError msg) noise) = 3 ∧
    recordField (fetch_crypto_data (.requestError msg) noise) "name"
      = [some (Json.str "Bitcoin"), some (Json.str "Ethereum"), some (Json.str "Tether")] ∧
    recordField (fetch_crypto_data (.requestError msg) noise) "cmc_rank"
      = [some (Json.num 1), some (Json.num 2), some (Json.num 3)] ∧
    recordCount (fetch_crypto_data (.jsonError msg) noise) = 3 ∧
    recordField (fetch_crypto_data (.jsonError msg) noise) "name"
      = [some (Json.str "Bitcoin"), some (Json.str "Ethereum"), some (Json.str "Tether")] ∧
    recordField (fetch_crypto_data (.jsonError msg) noise) "cmc_rank"
      = [some (Json.num 1), some (Json.num 2), some (Json.num 3)] :=
  ⟨rfl, rfl, rfl, rfl, rfl, rfl⟩

/-- Claim C6 (amended): any two invocations of the fallback generator agree
on every structural field — ids, names, symbols, slugs, ranks, market caps
and 24h volumes — while the price and percent-change fields depend on the
random draws and can differ, see the counterexample. -/
theorem mock_data_structural_determinism (n1 n2 : List ℚ) :
    recordField (get_mock_data n1) "id" = recordField (get_mock_data n2) "id" ∧
    recordField (get_mock_data n1) "name" = recordField (get_mock_data n2) "name" ∧
    recordField (get_mock_data n1) "symbol" = recordField (get_mock_data n2) "symbol" ∧
    recordField (get_mock_data n1) "slug" = recordField (get_mock_data n2) "slug" ∧
    recordField (get_mock_data n1) "cmc_rank" = recordField (get_mock_data n2) "cmc_rank" ∧
    quoteField (get_mock_data n1) "market_cap" = quoteField (get_mock_data n2) "market_cap" ∧
    quoteField (get_mock_data n1) "volume_24h" = quoteField (get_mock_data n2) "volume_24h" :=
  ⟨rfl, rfl, rfl, rfl, rfl, rfl, rfl⟩

/-- Counterexample for C6 as frozen: two invocations with different random
draws produce different Bitcoin prices, so the fallback is not deterministic
in all field values. -/
theorem mock_data_price_counterexample :
    firstPrice (get_mock_data [1]) ≠ firstPrice (get_mock_data []) := by
  intro h
  have e1 : firstPrice (get_mock_data [1]) = some (45000.5 + nz [1] 0) := rfl
  have e2 : firstPrice (get_mock_data []) = some (45000.5 + nz [] 0) := rfl
  rw [e1, e2] at h
  have h2 : (45000.5 + nz [1] 0 : ℚ) = 45000.5 + nz [] 0 := Option.some.inj h
  have n1 : nz [1] 0 = 1 := rfl
  have n2 : nz [] 0 = 0 := rfl
  rw [n1, n2] at h2
  norm_num at h2

/-- Claim C7: loading from an absent file reports that the file was not
found and leaves the in-memory dataset exactly as it was. -/
theorem load_missing_file_spec (filename : String) (df : DataFrame) :
    load_from_csv none filename df = .ok (df, "File " ++ filename ++ " not found") :=
  rfl

/-- Claim C8: summary statistics on an empty dataset return the sentinel
no-data message value; the function is total, so no exception is raised. -/
theorem summary_empty_spec :
    get_summary_stats [] = SummaryStats.noData "No data available" :=
  rfl

/-- Claim C10 (amended): on every transport or parse failure the fetch
returns the mock dict, which is truthy and contains the data key; on a
successful request it returns the parsed body verbatim, so the claim that
it never returns a falsy value fails when the server sends a falsy body,
see the counterexample. -/
theorem fetch_crypto_data_spec (noise : List ℚ) (msg : String) (body : Json) :
    fetch_crypto_data (.requestError msg) noise = get_mock_data noise ∧
    fetch_crypto_data (.jsonError msg) noise = get_mock_data noise ∧
    isFalsy (get_mock_data noise) = false ∧
    hasKey (get_mock_data noise) "data" = true ∧
    fetch_crypto_data (.success body) noise = body :=
  ⟨rfl, rfl, rfl, rfl, rfl⟩

/-- Counterexample for C10 as frozen: a successful request whose parsed body
is null makes fetch_crypto_data return a falsy value, so the failure branch
of run_data_collection is reachable. -/
theorem fetch_crypto_data_falsy_counterexample :
    isFalsy (fetch_crypto_data (.success Json.null) []) = true :=
  rfl

end CryptoPipeline

namespace CryptoPipeline

/-! Grouping lemmas for the trend aggregation. -/

theorem firstSeenAux_of_nodup :
    ∀ (l seen : List String), l.Nodup → (∀ x ∈ l, x ∉ seen) →
      firstSeenAux l seen = l := by
  intro l
  induction l with
  | nil => intro seen _ _; rfl
  | cons x xs ih =>
      intro seen hnd hdisj
      have hx : x ∉ seen := hdisj x (List.mem_cons_self x xs)
      rw [firstSeenAux, if_neg hx]
      congr 1
      refine ih (x :: seen) (List.nodup_cons.mp hnd).2 ?_
      intro y hy
      rw [List.mem_cons]
      rintro (rfl | hys)
      · exact (List.nodup_cons.mp hnd).1 hy
      · exact hdisj y (List.mem_cons_of_mem x hy) hys

theorem rowsFor_eq_nil :
    ∀ (df : DataFrame) (n : String), n ∉ names df → rowsFor df n = [] := by
  intro df n
  induction df with
  | nil => intro _; rfl
  | cons r rest ih =>
      intro h
      cases hm : rowName r with
      | none =>
          have h2 : n ∉ names rest := by
            simpa [names, List.filterMap_cons, hm] using h
          simpa [rowsFor, List.filter_cons, hm] using ih h2
      | some m =>
          have hmm : names (r :: rest) = m :: names rest := by
            simp [names, List.filterMap_cons, hm]
          rw [hmm, List.mem_cons] at h
          push_neg at h
          have hne : (m == n) = false := by
            simp only [beq_eq_false_iff_ne, ne_eq]
            exact fun e => h.1 e.symm
          simpa [rowsFor, List.filter_cons, hm, hne] using ih h.2

theorem rowsFor_cons (r : Row) (rest : DataFrame) (n : String) :
    rowsFor (r :: rest) n =
      if (rowName r == some n) = true then r :: rowsFor rest n
      else rowsFor rest n := by
  simp [rowsFor, List.filter_cons]

theorem names_map_group {β : Type} :
    ∀ (df : DataFrame) (f : DataFrame → β),
      (names df).Nodup → (∀ r ∈ df, (rowName r).isSome = true) →
      (names df).map (fun n => (n, f (rowsFor df n)))
        = df.map (fun r => ((rowName r).getD "", f [r])) := by
  intro df f
  induction df with
  | nil => intro _ _; rfl
  | cons r rest ih =>
      intro hnd hall
      obtain ⟨m, hm⟩ := Option.isSome_iff_exists.mp
        (hall r (List.mem_cons_self r rest))
      have hmm : names (r :: rest) = m :: names rest := by
        simp [names, List.filterMap_cons, hm]
      rw [hmm] at hnd
      have hnotin : m ∉ names rest := (List.nodup_cons.mp hnd).1
      have hbeq : (rowName r == some m) = true := by rw [hm]; simp
      have hhead : rowsFor (r :: rest) m = [r] := by
        rw [rowsFor_cons, if_pos hbeq, rowsFor_eq_nil rest m hnotin]
      have htail : ∀ n ∈ names rest,
          rowsFor (r :: rest) n = rowsFor rest n := by
        intro n hn
        have hmn : m ≠ n := fun e => hnotin (e ▸ hn)
        have hne : (rowName r == some n) = false := by
          rw [hm]
          exact beq_eq_false_iff_ne.mpr (fun e => hmn (Option.some.inj e))
        rw [rowsFor_cons, if_neg (by simp [hne])]
      rw [hmm, List.map_cons, List.map_cons]
      congr 1
      · rw [hm, hhead]; rfl
      · rw [List.map_congr_left (fun n hn => by rw [htail n hn])]
        exact ih (List.nodup_cons.mp hnd).2
          (fun x hx => hall x (List.mem_cons_of_mem r hx))

theorem colMean_singleton (r : Row) (c : String)
    (h : (numAt r c).isSome = true) :
    colMean [r] c = (numAt r c).getD 0 := by
  obtain ⟨q, hq⟩ := Option.isSome_iff_exists.mp h
  simp [colMean, List.filterMap_cons, hq]

theorem mem_keys_of_lookupVal {r : Row} {k : String} {v : Json}
    (h : lookupVal r k = some v) : k ∈ r.map Prod.fst := by
  induction r with
  | nil => simp [lookupVal, List.find?] at h
  | cons kv rest ih =>
      cases hk : (kv.1 == k) with
      | true =>
          rw [List.map_cons, List.mem_cons]
          exact Or.inl (eq_of_beq hk).symm
      | false =>
          rw [List.map_cons, List.mem_cons]
          exact Or.inr (ih (by simpa [lookupVal, List.find?, hk] using h))

theorem lookupVal_of_rowName {r : Row} {m : String}
    (h : rowName r = some m) : lookupVal r "name" = some (Json.str m) := by
  rw [rowName] at h
  cases hl : lookupVal r "name" with
  | none => rw [hl] at h; exact Option.noConfusion h
  | some v =>
      cases v with
      | str s => rw [hl] at h; cases h; rfl
      | null => rw [hl] at h; exact Option.noConfusion h
      | num q => rw [hl] at h; exact Option.noConfusion h
      | arr es => rw [hl] at h; exact Option.noConfusion h
      | obj fs => rw [hl] at h; exact Option.noConfusion h

theorem mem_firstSeenAux :
    ∀ (l seen : List String) (x : String),
      x ∈ firstSeenAux l seen ↔ x ∈ l ∧ x ∉ seen := by
  intro l
  induction l with
  | nil => intro seen x; simp [firstSeenAux]
  | cons y ys ih =>
      intro seen x
      by_cases hy : y ∈ seen
      · rw [firstSeenAux, if_pos hy, ih seen x]
        constructor
        · rintro ⟨hx, hns⟩
          exact ⟨List.mem_cons_of_mem y hx, hns⟩
        · rintro ⟨hx, hns⟩
          rcases List.mem_cons.mp hx with rfl | hx2
          · exact (hns hy).elim
          · exact ⟨hx2, hns⟩
      · rw [firstSeenAux, if_neg hy, List.mem_cons, ih (y :: seen) x]
        constructor
        · rintro (rfl | ⟨hx, hns⟩)
          · exact ⟨List.mem_cons_self _ _, hy⟩
          · refine ⟨List.mem_cons_of_mem y hx, ?_⟩
            exact fun hs => hns (List.mem_cons_of_mem y hs)
        · rintro ⟨hx, hns⟩
          rcases List.mem_cons.mp hx with rfl | hx2
          · exact Or.inl rfl
          · by_cases hxy : x = y
            · exact Or.inl hxy
            · refine Or.inr ⟨hx2, ?_⟩
              rw [List.mem_cons]
              rintro (h | h)
              · exact hxy h
              · exact hns h

theorem nodup_firstSeenAux :
    ∀ (l seen : List String), (firstSeenAux l seen).Nodup := by
  intro l
  induction l with
  | nil => intro seen; exact List.nodup_nil
  | cons y ys ih =>
      intro seen
      by_cases hy : y ∈ seen
      · rw [firstSeenAux, if_pos hy]; exact ih seen
      · rw [firstSeenAux, if_neg hy]
        refine List.nodup_cons.mpr ⟨?_, ih (y :: seen)⟩
        intro hmem
        exact ((mem_firstSeenAux ys (y :: seen) y).mp hmem).2
          (List.mem_cons_self y seen)

theorem firstSeen_nodup (l : List String) : (firstSeen l).Nodup :=
  nodup_firstSeenAux l []

theorem mem_firstSeen (l : List String) (x : String) :
    x ∈ firstSeen l ↔ x ∈ l := by
  rw [firstSeen, mem_firstSeenAux]
  simp

theorem colMean_mul_length (rows : DataFrame) (c : String) :
    colMean rows c * (((rows.filterMap (fun r => numAt r c)).length : ℚ))
      = (rows.filterMap (fun r => numAt r c)).sum := by
  by_cases h : (rows.filterMap (fun r => numAt r c)).length = 0
  · have hnil : rows.filterMap (fun r => numAt r c) = [] :=
      List.length_eq_zero.mp h
    simp [colMean, hnil]
  · have hne : (((rows.filterMap (fun r => numAt r c)).length : ℚ)) ≠ 0 :=
      Nat.cast_ne_zero.mpr h
    simp only [colMean]
    exact div_mul_cancel₀ _ hne

/-- Claim C3: trend aggregation on every non-empty dataset returns, for each
distinct asset name in first-seen order, the arithmetic mean of each of the
six percent-change columns that are present, taken over all of that asset's
rows: the result list is keyed by exactly the distinct names of the dataset
in first-seen order, each value v for a column satisfies
v * (number of that asset's rows carrying the column) = (sum of the column
over that asset's rows), and the mean is computed by colMean over rowsFor,
the rows whose name is that asset.  On a dataset with exactly one record per
asset the values are each record's own percent-change values — the mean of
one value is the value.  The result is empty when the dataset is empty or
none of the six columns is present. -/
theorem analyze_price_trends_spec (df : DataFrame) :
    (analyze_price_trends [] = .ok []) ∧
    ((availableOf df).isEmpty = true → analyze_price_trends df = .ok []) ∧
    (df ≠ [] → (availableOf df).isEmpty = false →
      (∀ r ∈ df, (rowName r).isSome = true) →
      analyze_price_trends df
        = .ok ((firstSeen (names df)).map (fun n =>
            (n, (availableOf df).map (fun c =>
              (c, colMean (rowsFor df n) c)))))) ∧
    ((firstSeen (names df)).Nodup ∧
      ∀ n, n ∈ firstSeen (names df) ↔ n ∈ names df) ∧
    (∀ n c, colMean (rowsFor df n) c
        * ((((rowsFor df n).filterMap (fun r => numAt r c)).length : ℚ))
      = ((rowsFor df n).filterMap (fun r => numAt r c)).sum) ∧
    ((names df).Nodup → (∀ r ∈ df, (rowName r).isSome = true) →
      (∀ r ∈ df, ∀ c ∈ availableOf df, (numAt r c).isSome = true) →
      df ≠ [] → (availableOf df).isEmpty = false →
      analyze_price_trends df
        = .ok (df.map (fun r => ((rowName r).getD "",
            (availableOf df).map (fun c => (c, (numAt r c).getD 0)))))) := by
  have hcontOf : (∀ r ∈ df, (rowName r).isSome = true) → df ≠ [] →
      (columns df).contains "name" = true := by
    intro hall hne
    cases df with
    | nil => exact absurd rfl hne
    | cons r rest =>
        obtain ⟨m, hm⟩ := Option.isSome_iff_exists.mp
          (hall r (List.mem_cons_self r rest))
        exact List.elem_iff.mpr (mem_keys_of_lookupVal (lookupVal_of_rowName hm))
  have hemptyOf : df ≠ [] → df.isEmpty = false := by
    intro hne
    cases df with
    | nil => exact absurd rfl hne
    | cons r rest => rfl
  refine ⟨rfl, ?_, ?_, ⟨firstSeen_nodup _, fun n => mem_firstSeen _ n⟩,
    fun n c => colMean_mul_length (rowsFor df n) c, ?_⟩
  · intro h
    cases df with
    | nil => rfl
    | cons r rest => simp [analyze_price_trends, h]
  · intro hne hav hall
    rw [analyze_price_trends, hemptyOf hne, hav, hcontOf hall hne]
    simp only [Bool.false_eq_true, if_false, if_true]
  · intro hnd hall hnum hne hav
    rw [analyze_price_trends, hemptyOf hne, hav, hcontOf hall hne]
    simp only [Bool.false_eq_true, if_false, if_true]
    refine congrArg Except.ok ?_
    rw [firstSeen, firstSeenAux_of_nodup (names df) [] hnd (by intro x _; simp)]
    refine (names_map_group df
      (fun grp => (availableOf df).map (fun c => (c, colMean grp c))) hnd hall).trans ?_
    refine List.map_congr_left ?_
    intro r hr
    refine congrArg (fun x => ((rowName r).getD "", x)) ?_
    exact List.map_congr_left (fun c hc => by rw [colMean_singleton r c (hnum r hr c hc)])

/-- Witness for C3: the general clause at a two-poll dataset in which
Bitcoin has two rows — the aggregation groups both rows under one Bitcoin
entry — and the one-record-per-asset clause at a two-asset dataset. -/
theorem analyze_price_trends_witness :
    analyze_price_trends multiPollDf
        = .ok ((firstSeen (names multiPollDf)).map (fun n =>
            (n, (availableOf multiPollDf).map (fun c =>
              (c, colMean (rowsFor multiPollDf n) c))))) ∧
    analyze_price_trends trendDf
        = .ok (trendDf.map (fun r => ((rowName r).getD "",
            (availableOf trendDf).map (fun c => (c, (numAt r c).getD 0))))) :=
  ⟨(analyze_price_trends_spec multiPollDf).2.2.1 (List.cons_ne_nil _ _) rfl
      (by decide),
   (analyze_price_trends_spec trendDf).2.2.2.2.2 (by decide) (by decide)
      (by decide) (List.cons_ne_nil _ _) rfl⟩

end CryptoPipeline

namespace CryptoPipeline

/-! Row reconstruction lemmas for the CSV round trip. -/

theorem lookupVal_cons_ne {kv : String × Json} {rest : Row} {c : String}
    (h : (kv.1 == c) = false) : lookupVal (kv :: rest) c = lookupVal rest c := by
  simp [lookupVal, List.find?, h]

theorem zip_keys_lookup (d : Json) :
    ∀ (r : Row), (r.map Prod.fst).Nodup →
      (r.map Prod.fst).zip ((r.map Prod.fst).map (fun c => (lookupVal r c).getD d))
        = r := by
  intro r
  induction r with
  | nil => intro _; rfl
  | cons kv rest ih =>
      intro hnd
      simp only [List.map_cons] at hnd
      have hkv : kv.1 ∉ rest.map Prod.fst := (List.nodup_cons.mp hnd).1
      simp only [List.map_cons, List.zip_cons_cons]
      have hself : lookupVal (kv :: rest) kv.1 = some kv.2 := by
        simp [lookupVal, List.find?]
      have hcongr : (rest.map Prod.fst).map
            (fun c => (lookupVal (kv :: rest) c).getD d)
          = (rest.map Prod.fst).map (fun c => (lookupVal rest c).getD d) := by
        refine List.map_congr_left ?_
        intro c hc
        have hne : (kv.1 == c) = false :=
          beq_eq_false_iff_ne.mpr (fun e => hkv (e ▸ hc))
        rw [lookupVal_cons_ne hne]
      rw [hself, hcongr, ih (List.nodup_cons.mp hnd).2]
      simp

theorem map_replace_id {k : String} {v : Json} :
    ∀ (r : Row), k ∉ r.map Prod.fst →
      r.map (fun kv => if kv.1 == k then (k, v) else kv) = r := by
  intro r
  induction r with
  | nil => intro _; rfl
  | cons kv rest ih =>
      intro h
      simp only [List.map_cons, List.mem_cons] at h
      push_neg at h
      have h1 : (kv.1 == k) = false :=
        beq_eq_false_iff_ne.mpr (fun e => h.1 e.symm)
      rw [List.map_cons, if_neg (by simp [h1]), ih h.2]

theorem map_replace_self :
    ∀ (r : Row) (k : String) (v : Json), (r.map Prod.fst).Nodup →
      lookupVal r k = some v →
      r.map (fun kv => if kv.1 == k then (k, v) else kv) = r := by
  intro r
  induction r with
  | nil => intro k v _ h; simp [lookupVal, List.find?] at h
  | cons kv rest ih =>
      intro k v hnd h
      simp only [List.map_cons] at hnd
      cases hk : (kv.1 == k) with
      | true =>
          have hkey : kv.1 = k := eq_of_beq hk
          have hv : some kv.2 = some v := by
            simpa [lookupVal, List.find?, hk] using h
          have hrest : rest.map (fun kv => if kv.1 == k then (k, v) else kv)
              = rest := by
            refine map_replace_id rest ?_
            rw [← hkey]
            exact (List.nodup_cons.mp hnd).1
          rw [List.map_cons, if_pos (by simp [hk]), hrest]
          rw [← hkey, ← Option.some.inj hv]
      | false =>
          rw [List.map_cons, if_neg (by simp [hk])]
          rw [ih k v (List.nodup_cons.mp hnd).2 (by rwa [lookupVal_cons_ne hk] at h)]

theorem setKey_self (r : Row) (hnd : (r.map Prod.fst).Nodup) {k : String}
    {v : Json} (h : lookupVal r k = some v) : setKey r k v = r := by
  have hany : r.any (fun kv => kv.1 == k) = true := by
    obtain ⟨kv0, hfind⟩ : ∃ kv0, r.find? (fun kv => kv.1 == k) = some kv0 := by
      cases hf : r.find? (fun kv => kv.1 == k) with
      | none => rw [lookupVal, hf] at h; exact Option.noConfusion h
      | some kv0 => exact ⟨kv0, rfl⟩
    have hp := List.find?_some hfind
    exact List.any_eq_true.mpr ⟨kv0, List.mem_of_find?_eq_some hfind, hp⟩
  rw [setKey, if_pos hany]
  exact map_replace_self r k v hnd h

theorem lookupVal_isSome_of_mem :
    ∀ (r : Row) (k : String), k ∈ r.map Prod.fst →
      (lookupVal r k).isSome = true := by
  intro r k
  induction r with
  | nil => intro h; simp at h
  | cons kv rest ih =>
      intro h
      cases hk : (kv.1 == k) with
      | true => simp [lookupVal, List.find?, hk]
      | false =>
          rw [lookupVal_cons_ne hk]
          refine ih ?_
          rw [List.map_cons, List.mem_cons] at h
          rcases h with h | h
          · exact absurd (beq_iff_eq.mpr h.symm) (by simp [hk])
          · exact h

/-- Claim C1 (amended): for every non-empty well-formed dataset (rectangular
rows matching the column list, distinct column names, a timestamp column
present), saving to CSV and loading back yields exactly the original dataset
— same record count and same field values, the timestamp cells surviving the
format/reparse step.  For an empty dataset nothing is written, so the load
sees whatever file already existed; see the counterexample. -/
theorem save_load_roundtrip (df : DataFrame) (fs : Option CsvFile) (fn : String)
    (hne : df ≠ [])
    (huniform : ∀ r ∈ df, r.map Prod.fst = columns df)
    (hnd : (columns df).Nodup)
    (hts : "timestamp" ∈ columns df) :
    load_from_csv (save_to_csv df fs) fn df
      = .ok (df, "Data loaded from " ++ fn) := by
  have hemp : df.isEmpty = false := by
    cases df with
    | nil => exact absurd rfl hne
    | cons a b => rfl
  have hsave : save_to_csv df fs = some (toCsv df) := by
    simp [save_to_csv, hemp]
  rw [hsave]
  simp only [load_from_csv, toCsv]
  rw [if_pos hts]
  refine congrArg (fun x => Except.ok (x, "Data loaded from " ++ fn)) ?_
  rw [List.map_map, List.map_map]
  conv_rhs => rw [← List.map_id df]
  refine List.map_congr_left ?_
  intro r hr
  simp only [Function.comp, id]
  have hkeys : r.map Prod.fst = columns df := huniform r hr
  have hnd' : (r.map Prod.fst).Nodup := by rw [hkeys]; exact hnd
  have hzip : (columns df).zip
      ((columns df).map (fun c => (lookupVal r c).getD Json.null)) = r := by
    rw [← hkeys]
    exact zip_keys_lookup Json.null r hnd'
  rw [hzip]
  have hmem : "timestamp" ∈ r.map Prod.fst := by rw [hkeys]; exact hts
  obtain ⟨ts, hlook⟩ :=
    Option.isSome_iff_exists.mp (lookupVal_isSome_of_mem r "timestamp" hmem)
  rw [hlook]
  exact setKey_self r hnd' hlook

/-- Witness for C1: a one-record dataset with a timestamp column survives
the save/load round trip unchanged. -/
theorem save_load_roundtrip_witness :
    load_from_csv (save_to_csv rtDf none) "crypto_data.csv" rtDf
      = .ok (rtDf, "Data loaded from " ++ "crypto_data.csv") := by
  refine save_load_roundtrip rtDf none "crypto_data.csv"
    (List.cons_ne_nil _ _) ?_ (by decide) (by decide)
  intro r hr
  rw [List.mem_singleton.mp hr]
  rfl

/-- Counterexample for C1 as frozen: for the empty dataset, save_to_csv
writes nothing ("No data to save"), so a following load reads the
pre-existing one-record file and yields 1 record instead of 0 — the
round-trip property fails for empty datasets. -/
theorem save_load_empty_counterexample :
    (load_from_csv (save_to_csv ([] : DataFrame) (some file0)) "crypto_data.csv" []).map
        (fun p => p.1.length) = Except.ok 1 ∧
    ([] : DataFrame).length = 0 :=
  ⟨rfl, rfl⟩

/-! Run lemmas for the collection loop. -/

theorem numAt_setKey (r : Row) (t : ℚ) :
    numAt (setKey r "timestamp" (Json.num t)) "timestamp" = some t := by
  rw [numAt, lookupVal_setKey]

theorem tsOf_append (a b : DataFrame) : tsOf (a ++ b) = tsOf a ++ tsOf b := by
  simp [tsOf, List.filterMap_append]

theorem tsOf_processedOf : ∀ (elems : List Json) (t : ℚ),
    tsOf (processedOf elems t) = List.replicate elems.length t := by
  intro elems t
  induction elems with
  | nil => rfl
  | cons e rest ih =>
      simp only [processedOf, List.map_cons, tsOf, List.filterMap_cons,
        numAt_setKey, List.length_cons, List.replicate_succ]
      exact congrArg (List.cons t) ih

theorem run_step (o : FetchOutcome) (ns : List ℚ) (t : ℚ) (elems : List Json)
    (rest : List (FetchOutcome × List ℚ × ℚ)) (df : DataFrame)
    (h : getKey (fetch_crypto_data o ns) "data" = some (Json.arr elems))
    (hobj : ∀ e ∈ elems, isObj e = true) :
    run_data_collection ((o, ns, t) :: rest) df
      = run_data_collection rest (df ++ processedOf elems t) := by
  have hf : isFalsy (fetch_crypto_data o ns) = false := isFalsy_of_getKey h
  simp only [run_data_collection, hf, Bool.false_eq_true, if_false,
    process_data_of_data_arr t h hobj, append_data_eq_append]

/-- Claim C9: three consecutive fetch-and-append iterations whose fetched
bodies each hold a data array of 3 record objects yield a dataset of exactly
9 records whose timestamps are, in row order, the three iteration instants
threefold; when the wall clock does not go backwards across iterations the
timestamp sequence is non-decreasing. -/
theorem run_data_collection_spec
    (o1 o2 o3 : FetchOutcome) (n1 n2 n3 : List ℚ) (t1 t2 t3 : ℚ)
    (e1 e2 e3 : List Json)
    (h1 : getKey (fetch_crypto_data o1 n1) "data" = some (Json.arr e1))
    (hl1 : e1.length = 3) (ho1 : ∀ e ∈ e1, isObj e = true)
    (h2 : getKey (fetch_crypto_data o2 n2) "data" = some (Json.arr e2))
    (hl2 : e2.length = 3) (ho2 : ∀ e ∈ e2, isObj e = true)
    (h3 : getKey (fetch_crypto_data o3 n3) "data" = some (Json.arr e3))
    (hl3 : e3.length = 3) (ho3 : ∀ e ∈ e3, isObj e = true) :
    run_data_collection [(o1, n1, t1), (o2, n2, t2), (o3, n3, t3)] []
        = .ok (processedOf e1 t1 ++ processedOf e2 t2 ++ processedOf e3 t3) ∧
    (processedOf e1 t1 ++ processedOf e2 t2 ++ processedOf e3 t3).length = 9 ∧
    tsOf (processedOf e1 t1 ++ processedOf e2 t2 ++ processedOf e3 t3)
        = [t1, t1, t1, t2, t2, t2, t3, t3, t3] ∧
    (t1 ≤ t2 → t2 ≤ t3 →
      List.Chain' (· ≤ ·)
        (tsOf (processedOf e1 t1 ++ processedOf e2 t2 ++ processedOf e3 t3))) := by
  have hts : tsOf (processedOf e1 t1 ++ processedOf e2 t2 ++ processedOf e3 t3)
      = [t1, t1, t1, t2, t2, t2, t3, t3, t3] := by
    rw [tsOf_append, tsOf_append, tsOf_processedOf, tsOf_processedOf,
      tsOf_processedOf, hl1, hl2, hl3]
    rfl
  refine ⟨?_, ?_, hts, ?_⟩
  · rw [run_step o1 n1 t1 e1 _ _ h1 ho1, List.nil_append,
      run_step o2 n2 t2 e2 _ _ h2 ho2, run_step o3 n3 t3 e3 _ _ h3 ho3]
    rfl
  · simp [length_processedOf, hl1, hl2, hl3]
  · intro h12 h23
    rw [hts]
    simp only [List.chain'_cons, List.chain'_singleton, and_true]
    exact ⟨le_refl t1, le_refl t1, h12, le_refl t2, le_refl t2, h23,
      le_refl t3, le_refl t3⟩

/-- Witness for C9: three iterations that each fall back to the mock data
(3 records per fetch) at instants 0, 1, 2 build the expected 9-record
dataset. -/
theorem run_data_collection_witness :
    run_data_collection
        [(.requestError "e", ([] : List ℚ), (0 : ℚ)),
         (.requestError "e", [], 1), (.requestError "e", [], 2)] []
      = .ok (processedOf (mockElems []) 0 ++ processedOf (mockElems []) 1
          ++ processedOf (mockElems []) 2) ∧
    (processedOf (mockElems []) 0 ++ processedOf (mockElems []) 1
        ++ processedOf (mockElems []) 2).length = 9 := by
  have h := run_data_collection_spec (.requestError "e") (.requestError "e")
    (.requestError "e") [] [] [] 0 1 2 (mockElems []) (mockElems []) (mockElems [])
    rfl rfl (by decide) rfl rfl (by decide) rfl rfl (by decide)
  exact ⟨h.1, h.2.1⟩

end CryptoPipeline
